import Mathlib

/-!
Verification development for the `wire` multi-provider LLM client library.

The definitions below are a shallow embedding of the request/response
translation core of the library: the canonical message model, the
provider-model registry, the per-provider request translators and response
decoders, the text normalization helpers, the tool-invocation loops and the
Gemini streaming decoder.  Strings are modelled as Lean `String`s (lists of
characters); the byte-level operations of the source only ever slice at
one-byte `"` characters, so character-level slicing coincides with the
source's byte-level slicing at every guarded call site.  Panics and other
abnormal terminations are made explicit with `Option`/`Except`.
-/

namespace Wire

/-- ASCII fragment of the whitespace predicate used by `str::trim`. -/
def isWsChar (c : Char) : Bool :=
  c = ' ' || c = '\t' || c = '\n' || c = '\r' || c = '\x0b' || c = '\x0c'

/-- `str::trim`: drop whitespace from both ends. -/
def trimList (l : List Char) : List Char :=
  ((l.dropWhile isWsChar).reverse.dropWhile isWsChar).reverse

/-- Fueled core of Rust `str::replace`: replace non-overlapping
occurrences of `pat`, scanning left to right.  Every step consumes at
least one character and one unit of fuel, so fuel equal to the input
length never runs out. -/
def replaceListF (pat rep : List Char) : Nat → List Char → List Char
  | _, [] => []
  | 0, l => l
  | fuel + 1, c :: rest =>
    if 1 ≤ pat.length ∧ pat.isPrefixOf (c :: rest) then
      rep ++ replaceListF pat rep fuel (rest.drop (pat.length - 1))
    else
      c :: replaceListF pat rep fuel rest

/-- Rust `str::replace`. -/
def replaceList (pat rep l : List Char) : List Char :=
  replaceListF pat rep l.length l

/-- `network_common::unescape`: five sequential literal replaces, in the
source's order. -/
def unescape (s : String) : String :=
  ⟨replaceList ['\\', '\\'] ['\\']
    (replaceList ['\\', '\''] ['\'']
      (replaceList ['\\', '"'] ['"']
        (replaceList ['\\', 't'] ['\t']
          (replaceList ['\\', 'n'] ['\n'] s.data))))⟩

/-- `content.starts_with('"')` on the character list. -/
def startsWithQuote (l : List Char) : Bool :=
  match l with
  | [] => false
  | c :: _ => c = '"'

/-- `content.ends_with('"')` on the character list. -/
def endsWithQuote (l : List Char) : Bool :=
  startsWithQuote l.reverse

/-- The guarded quote strip used by `anthropic::prompt`, `gemini::prompt`
and both tool loops: strip one wrapping pair of double quotes when the
text starts and ends with `"` and has length at least two. -/
def stripWrappingQuotes (s : String) : String :=
  if startsWithQuote s.data && endsWithQuote s.data && decide (2 ≤ s.data.length) then
    ⟨(s.data.drop 1).dropLast⟩
  else
    s

/-- The unguarded variant in `openai::prompt` (no length check): on the
one-character string `"` the source evaluates `content[1..0]`, which
panics; that abnormal exit is modelled by `none`. -/
def stripWrappingQuotesNoLen (s : String) : Option String :=
  if startsWithQuote s.data && endsWithQuote s.data then
    if 2 ≤ s.data.length then some ⟨(s.data.drop 1).dropLast⟩ else none
  else
    some s

/-- The decoded-text normalization of the non-streaming prompt paths with
the length guard (anthropic.rs / gemini.rs): literal unescape followed by
the conditional strip of one redundant wrapping quote pair. -/
def normalize (s : String) : String :=
  stripWrappingQuotes (unescape s)

/-- The OpenAI non-streaming prompt path normalization (openai.rs): same
unescape, but the quote strip lacks the length guard. -/
def openaiPromptNormalize (s : String) : Option String :=
  stripWrappingQuotesNoLen (unescape s)

theorem replaceListF_eq_of_head_not_mem (b : Char) (p rep : List Char) :
    ∀ (fuel : Nat) (l : List Char), b ∉ l → replaceListF (b :: p) rep fuel l = l := by
  intro fuel
  induction fuel with
  | zero =>
    intro l _
    cases l <;> rfl
  | succ n ih =>
    intro l h
    cases l with
    | nil => rfl
    | cons c rest =>
      have hbc : b ≠ c := fun hEq => h (hEq ▸ List.mem_cons_self c rest)
      have hnp : ((b :: p).isPrefixOf (c :: rest)) = false := by
        simp only [List.isPrefixOf, Bool.and_eq_false_iff, beq_eq_false_iff_ne, ne_eq]
        exact Or.inl hbc
      have hrest : b ∉ rest := fun hm => h (List.mem_cons_of_mem c hm)
      rw [replaceListF, if_neg (by simp [hnp]), ih rest hrest]

theorem replaceList_eq_of_head_not_mem (b : Char) (p rep l : List Char)
    (h : b ∉ l) : replaceList (b :: p) rep l = l :=
  replaceListF_eq_of_head_not_mem b p rep l.length l h

/-- `pat` occurs as a contiguous subsequence of the list. -/
def containsSeq (pat : List Char) : List Char → Bool
  | [] => pat.isEmpty
  | c :: rest => pat.isPrefixOf (c :: rest) || containsSeq pat rest

/-- The JSON value model (`serde_json::Value` restricted to the shapes the
library produces and consumes; numbers are integers here, which covers
every number the embedded code paths construct or inspect). Arrays and
objects are cons-spines inside the one inductive so that every function
over JSON is plainly structural; the `Json.arr`/`Json.obj` smart
constructors below build them from lists, and object fields keep their
construction order. -/
inductive Json where
  | null
  | bool (b : Bool)
  | num (n : Int)
  | str (s : String)
  | arrNil
  | arrCons (head : Json) (tail : Json)
  | objNil
  | objCons (key : String) (val : Json) (tail : Json)
deriving DecidableEq, Repr

/-- Build a JSON array from a list of values. -/
def Json.arr (elems : List Json) : Json :=
  elems.foldr .arrCons .arrNil

/-- Build a JSON object from an ordered field list. -/
def Json.obj (fields : List (String × Json)) : Json :=
  fields.foldr (fun kv t => .objCons kv.1 kv.2 t) .objNil

/-- `Value::get(key)`: field lookup on objects, `None` elsewhere. -/
def jGet : Json → String → Option Json
  | .objNil, _ => none
  | .objCons k v t, key => if k = key then some v else jGet t key
  | _, _ => none

/-- `Value::get(index)`: array indexing, `None` elsewhere. -/
def jIdx : Json → Nat → Option Json
  | .arrCons h _, 0 => some h
  | .arrCons _ t, n + 1 => jIdx t n
  | _, _ => none

/-- `Value::index` (the `v["key"]` form): missing steps yield `Null`. -/
def jField (j : Json) (key : String) : Json :=
  (jGet j key).getD .null

/-- `v[i]` on arrays, `Null` when out of range or not an array. -/
def jAt (j : Json) (n : Nat) : Json :=
  (jIdx j n).getD .null

/-- `Value::as_str`. -/
def jAsStr (j : Json) : Option String :=
  match j with
  | .str s => some s
  | _ => none

/-- `Value::as_array` (as the list of elements). -/
def jAsArr : Json → Option (List Json)
  | .arrNil => some []
  | .arrCons h t => (jAsArr t).map (h :: ·)
  | _ => none

/-- `body[key] = value` on an object: replace the field if present,
insert at the end otherwise (every use site below applies it to an
object; insertion position does not affect any property proved below). -/
def jSet : Json → String → Json → Json
  | .objNil, key, v => .objCons key v .objNil
  | .objCons k w t, key, v =>
    if k = key then .objCons k v t else .objCons k w (jSet t key v)
  | other, _, _ => other

/-- JSON string escaping as performed by `serde_json::to_string` (the
control characters other than the ones listed never occur in the values
the embedded code paths serialize). -/
def escapeJsonChar (c : Char) : List Char :=
  if c = '"' then ['\\', '"']
  else if c = '\\' then ['\\', '\\']
  else if c = '\n' then ['\\', 'n']
  else if c = '\t' then ['\\', 't']
  else if c = '\r' then ['\\', 'r']
  else [c]

/-- Serialize a string literal, quotes included. -/
def quoteJsonString (s : String) : String :=
  ⟨'"' :: s.data.foldr (fun c acc => escapeJsonChar c ++ acc) ['"']⟩

/-- Rendering position for the structural JSON serializer: a value, or
the remaining tail of an array or object body. -/
inductive SMode where
  | val
  | arrTail
  | objTail

/-- Structural core of `serde_json::to_string` (compact serialization). -/
def jsonToStringM : SMode → Json → String
  | .val, .null => "null"
  | .val, .bool true => "true"
  | .val, .bool false => "false"
  | .val, .num n => toString n
  | .val, .str s => quoteJsonString s
  | .val, .arrNil => "[]"
  | .val, .arrCons h t => "[" ++ jsonToStringM .val h ++ jsonToStringM .arrTail t ++ "]"
  | .val, .objNil => "\x7b\x7d"
  | .val, .objCons k v t =>
    "\x7b" ++ quoteJsonString k ++ ":" ++ jsonToStringM .val v ++ jsonToStringM .objTail t ++ "\x7d"
  | .arrTail, .arrCons h t => "," ++ jsonToStringM .val h ++ jsonToStringM .arrTail t
  | .objTail, .objCons k v t => "," ++ quoteJsonString k ++ ":" ++ jsonToStringM .val v ++ jsonToStringM .objTail t
  | _, _ => ""

/-- `serde_json::to_string`. -/
def jsonToString (j : Json) : String :=
  jsonToStringM .val j

/-- The four whitespace characters JSON allows between tokens. -/
def isJsonWs (c : Char) : Bool :=
  c = ' ' || c = '\t' || c = '\n' || c = '\r'

/-- Skip inter-token whitespace. -/
def skipWs : List Char → List Char
  | [] => []
  | c :: rest => if isJsonWs c then skipWs rest else c :: rest

/-- Parse the body of a JSON string literal (the opening quote already
consumed), handling the simple escapes; `\u` escapes and unescaped
control characters are rejected, a strict subset of `serde_json`. -/
def parseStringBody : List Char → Option (List Char × List Char)
  | [] => none
  | c :: rest =>
    if c = '"' then some ([], rest)
    else if c = '\\' then
      match rest with
      | [] => none
      | e :: rest2 =>
        let d? : Option Char :=
          if e = '"' then some '"'
          else if e = '\\' then some '\\'
          else if e = '/' then some '/'
          else if e = 'n' then some '\n'
          else if e = 't' then some '\t'
          else if e = 'r' then some '\r'
          else if e = 'b' then some '\x08'
          else if e = 'f' then some '\x0c'
          else none
        match d? with
        | none => none
        | some d => (parseStringBody rest2).map fun p => (d :: p.1, p.2)
    else if c.val < 32 then none
    else (parseStringBody rest).map fun p => (c :: p.1, p.2)

/-- Collect a maximal run of decimal digits. -/
def takeDigits (l : List Char) : List Char × List Char :=
  (l.takeWhile Char.isDigit, l.dropWhile Char.isDigit)

/-- Digits to a natural number (most significant first). -/
def digitsToNat (l : List Char) : Nat :=
  l.foldl (fun acc c => acc * 10 + (c.toNat - '0'.toNat)) 0

/-- Parse a JSON integer literal: optional minus sign, no leading zeros,
rejecting a following fraction/exponent (floats are outside this model,
a strict subset of `serde_json`). -/
def parseIntLit (l : List Char) : Option (Json × List Char) :=
  let (neg, l1) := match l with
    | '-' :: rest => (true, rest)
    | _ => (false, l)
  let (ds, rest) := takeDigits l1
  match ds with
  | [] => none
  | d0 :: drest =>
    if d0 = '0' ∧ drest ≠ [] then none
    else
      match rest with
      | c :: _ =>
        if c = '.' || c = 'e' || c = 'E' then none
        else some (.num (if neg then -(digitsToNat ds : Int) else (digitsToNat ds : Int)), rest)
      | [] => some (.num (if neg then -(digitsToNat ds : Int) else (digitsToNat ds : Int)), rest)

/-- No duplicate keys (the parser rejects them, a strict subset of
`serde_json`, whose map semantics would otherwise differ from the
field-list model). -/
def noDupKeys : List String → Bool
  | [] => true
  | k :: rest => !rest.contains k && noDupKeys rest

/-- The grammar nonterminal a fueled parser step works on. -/
inductive PMode where
  | val
  | arrItems
  | objItems

/-- The result of a fueled parser step. -/
inductive PRes where
  | v (j : Json)
  | elems (l : List Json)
  | fields (l : List (String × Json))

/-- Fueled JSON parser, a strict subset of `serde_json::from_str`
(everything this accepts, `serde_json` accepts with the same value):
one function over a mode tag so that the recursion is structural on the
fuel. -/
def parseF : Nat → PMode → List Char → Option (PRes × List Char)
  | 0, _, _ => none
  | fuel + 1, .val, s =>
    (match skipWs s with
    | [] => none
    | c :: rest =>
      if c = '"' then (parseStringBody rest).map fun p => (.v (.str ⟨p.1⟩), p.2)
      else if c = '\x7b' then
        match skipWs rest with
        | '\x7d' :: r2 => some (.v (.obj []), r2)
        | r1 =>
          (parseF fuel .objItems r1).bind fun p =>
            match p.1 with
            | .fields fs => if noDupKeys (fs.map Prod.fst) then some (.v (.obj fs), p.2) else none
            | _ => none
      else if c = '[' then
        match skipWs rest with
        | ']' :: r2 => some (.v (.arr []), r2)
        | r1 =>
          (parseF fuel .arrItems r1).bind fun p =>
            match p.1 with
            | .elems es => some (.v (.arr es), p.2)
            | _ => none
      else if c = 't' then
        if ['r', 'u', 'e'].isPrefixOf rest then some (.v (.bool true), rest.drop 3) else none
      else if c = 'f' then
        if ['a', 'l', 's', 'e'].isPrefixOf rest then some (.v (.bool false), rest.drop 4) else none
      else if c = 'n' then
        if ['u', 'l', 'l'].isPrefixOf rest then some (.v .null, rest.drop 3) else none
      else (parseIntLit (c :: rest)).map fun p => (.v p.1, p.2))
  | fuel + 1, .arrItems, s =>
    (parseF fuel .val s).bind fun p =>
      match p.1 with
      | .v j =>
        (match skipWs p.2 with
        | ',' :: r2 =>
          (parseF fuel .arrItems r2).bind fun q =>
            match q.1 with
            | .elems es => some (.elems (j :: es), q.2)
            | _ => none
        | ']' :: r2 => some (.elems [j], r2)
        | _ => none)
      | _ => none
  | fuel + 1, .objItems, s =>
    match skipWs s with
    | '"' :: r1 =>
      (parseStringBody r1).bind fun kp =>
        match skipWs kp.2 with
        | ':' :: r2 =>
          (parseF fuel .val r2).bind fun p =>
            match p.1 with
            | .v j =>
              (match skipWs p.2 with
              | ',' :: r3 =>
                (parseF fuel .objItems r3).bind fun q =>
                  match q.1 with
                  | .fields fs => some (.fields ((⟨kp.1⟩, j) :: fs), q.2)
                  | _ => none
              | '\x7d' :: r3 => some (.fields [(⟨kp.1⟩, j)], r3)
              | _ => none)
            | _ => none
        | _ => none
    | _ => none

/-- `serde_json::from_str::<Value>` (on the strict subset this model
covers): parse one value and require only whitespace to follow. -/
def parseJson (s : String) : Option Json :=
  match parseF (s.length + 1) .val s.data with
  | some (.v j, rest) => if skipWs rest = [] then some j else none
  | _ => none

/-- `api::OpenAIModel`. -/
inductive OpenAIModel where
  | GPT5
  | GPT4o
  | GPT4oMini
  | O1Preview
  | O1Mini
deriving DecidableEq, Repr

/-- `api::AnthropicModel`. -/
inductive AnthropicModel where
  | ClaudeOpus41
  | ClaudeOpus4
  | ClaudeSonnet4
  | Claude37Sonnet
  | Claude35SonnetNew
  | Claude35Haiku
  | Claude35SonnetOld
  | Claude3Haiku
  | Claude3Opus
deriving DecidableEq, Repr

/-- `api::GeminiModel`. -/
inductive GeminiModel where
  | Gemini25ProExp
  | Gemini20Flash
  | Gemini20FlashLite
  | GeminiEmbedding
deriving DecidableEq, Repr

/-- `api::API`. -/
inductive API where
  | OpenAI (model : OpenAIModel)
  | Anthropic (model : AnthropicModel)
  | Gemini (model : GeminiModel)
deriving DecidableEq, Repr

/-- The wire string of `OpenAIModel::to_strings` (openai.rs). -/
def OpenAIModel.modelStr : OpenAIModel → String
  | .GPT5 => "gpt-5"
  | .GPT4o => "gpt-4o"
  | .GPT4oMini => "gpt-4o-mini"
  | .O1Preview => "o1-preview"
  | .O1Mini => "o1-mini"

/-- The wire string of `AnthropicModel::to_strings` (anthropic.rs). -/
def AnthropicModel.modelStr : AnthropicModel → String
  | .ClaudeOpus41 => "claude-opus-4-1-20250805"
  | .ClaudeOpus4 => "claude-opus-4-20250514"
  | .ClaudeSonnet4 => "claude-sonnet-4-20250514"
  | .Claude37Sonnet => "claude-3-7-sonnet-20250219"
  | .Claude35SonnetNew => "claude-3-5-sonnet-20241022"
  | .Claude35Haiku => "claude-3-5-haiku-20241022"
  | .Claude35SonnetOld => "claude-3-5-sonnet-20240620"
  | .Claude3Haiku => "claude-3-haiku-20240307"
  | .Claude3Opus => "claude-3-opus-20240229"

/-- The wire string for `GeminiModel` (types.rs `API::to_strings`). -/
def GeminiModel.modelStr : GeminiModel → String
  | .Gemini25ProExp => "gemini-2.5-flash-preview-04-17"
  | .Gemini20Flash => "gemini-2.0-flash"
  | .Gemini20FlashLite => "gemini-2.0-flash-lite"
  | .GeminiEmbedding => "gemini-embedding-exp"

/-- `API::to_strings` (api.rs): `(provider, model)` wire strings. -/
def API.to_strings : API → String × String
  | .OpenAI m => ("openai", m.modelStr)
  | .Anthropic m => ("anthropic", m.modelStr)
  | .Gemini m => ("gemini", m.modelStr)

/-- `API::from_strings` (api.rs): parse `(provider, model)` wire strings. -/
def API.from_strings (provider model : String) : Except String API :=
  match provider with
  | "openai" =>
    match model with
    | "gpt-5" => .ok (.OpenAI .GPT5)
    | "gpt-4o" => .ok (.OpenAI .GPT4o)
    | "gpt-4o-mini" => .ok (.OpenAI .GPT4oMini)
    | "o1-preview" => .ok (.OpenAI .O1Preview)
    | "o1-mini" => .ok (.OpenAI .O1Mini)
    | _ => .error ("Unknown OpenAI model: " ++ model)
  | "anthropic" =>
    match model with
    | "claude-opus-4-1-20250805" => .ok (.Anthropic .ClaudeOpus41)
    | "claude-opus-4-20250514" => .ok (.Anthropic .ClaudeOpus4)
    | "claude-sonnet-4-20250514" => .ok (.Anthropic .ClaudeSonnet4)
    | "claude-3-7-sonnet-20250219" => .ok (.Anthropic .Claude37Sonnet)
    | "claude-3-5-sonnet-20241022" => .ok (.Anthropic .Claude35SonnetNew)
    | "claude-3-5-haiku-20241022" => .ok (.Anthropic .Claude35Haiku)
    | "claude-3-5-sonnet-20240620" => .ok (.Anthropic .Claude35SonnetOld)
    | "claude-3-haiku-20240307" => .ok (.Anthropic .Claude3Haiku)
    | "claude-3-opus-20240229" => .ok (.Anthropic .Claude3Opus)
    | _ => .error ("Unknown Anthropic model: " ++ model)
  | "gemini" =>
    match model with
    | "gemini-2.5-flash-preview-04-17" => .ok (.Gemini .Gemini25ProExp)
    | "gemini-2.0-flash" => .ok (.Gemini .Gemini20Flash)
    | "gemini-2.0-flash-lite" => .ok (.Gemini .Gemini20FlashLite)
    | "gemini-embedding-exp" => .ok (.Gemini .GeminiEmbedding)
    | _ => .error ("Unknown Gemini model: " ++ model)
  | _ => .error ("Unknown provider: " ++ provider)

/-- `types::MessageType`. -/
inductive MessageType where
  | System
  | User
  | Assistant
  | FunctionCall
  | FunctionCallOutput
deriving DecidableEq, Repr

/-- `MessageType::to_string` (types.rs). -/
def MessageType.to_string : MessageType → String
  | .System => "system"
  | .User => "user"
  | .Assistant => "assistant"
  | .FunctionCall => "function"
  | .FunctionCallOutput => "tool"

/-- `types::Function`: the name/argument pair inside a tool call; the
arguments are a raw JSON-encoded string. -/
structure Function where
  name : String
  arguments : String
deriving DecidableEq, Repr

/-- `types::FunctionCall`. -/
structure FunctionCall where
  id : String
  call_type : String
  function : Function
deriving DecidableEq, Repr

/-- `types::Message`: one canonical conversation turn. -/
structure Message where
  message_type : MessageType
  content : String
  api : API
  system_prompt : String
  tool_calls : Option (List FunctionCall)
  tool_call_id : Option String
  name : Option String
  input_tokens : Nat
  output_tokens : Nat
deriving DecidableEq, Repr

/-- Rebuilding a string from its character list is the identity. -/
theorem string_mk_data (s : String) : String.mk s.data = s := by
  cases s
  rfl

/-- `openai.rs read_json_response`: extract `choices[0].message.content`
or fail with the path name. -/
def openai_read_json_response (response_json : Json) : Except String String :=
  match ((((jGet response_json "choices").bind (jIdx · 0)).bind
      (jGet · "message")).bind (jGet · "content")).bind jAsStr with
  | some s => .ok s
  | none => .error "Missing 'choices[0].message.content'"

/-- `anthropic.rs read_json_response`: extract `content[0].text` or fail
with the path name. -/
def anthropic_read_json_response (response_json : Json) : Except String String :=
  match (((jGet response_json "content").bind (jIdx · 0)).bind
      (jGet · "text")).bind jAsStr with
  | some s => .ok s
  | none => .error "Missing 'content[0].text'"

/-- `gemini.rs read_json_response`: extract
`candidates[0].content.parts[0].text` or fail with the path name. -/
def gemini_read_json_response (response_json : Json) : Except String String :=
  match ((((((jGet response_json "candidates").bind (jIdx · 0)).bind
      (jGet · "content")).bind (jGet · "parts")).bind (jIdx · 0)).bind
      (jGet · "text")).bind jAsStr with
  | some s => .ok s
  | none => .error "Missing 'candidates[0].content.parts[0].text'"

/-- The `{type: tool_result, tool_use_id, content}` block built for one
tool-result message (anthropic.rs `format_messages`). -/
def toolResultJson (id content : String) : Json :=
  Json.obj [("type", .str "tool_result"), ("tool_use_id", .str id),
    ("content", .str content)]

/-- The tool-result blocks a single message contributes: one when it
carries a `tool_call_id`, none otherwise. -/
def toolResultsOf (m : Message) : List Json :=
  match m.tool_call_id with
  | some id => [toolResultJson id m.content]
  | none => []

/-- The single `role=user` message wrapping a coalesced run of
tool-result blocks. -/
def toolResultUserMsg (results : List Json) : Json :=
  Json.obj [("role", .str "user"), ("content", Json.arr results)]

/-- A `tool_use` content block of an Assistant turn (anthropic.rs): the
argument string parsed as JSON, `Null` when unparsable. -/
def toolUseJson (call : FunctionCall) : Json :=
  Json.obj [("type", .str "tool_use"), ("id", .str call.id),
    ("name", .str call.function.name),
    ("input", (parseJson call.function.arguments).getD .null)]

/-- Anthropic translation of a message that is not a tool result: an
Assistant turn becomes a content array of an optional text block plus its
tool_use blocks; any other role keeps its plain string content. -/
def anthropicPlainMsgJson (m : Message) : Json :=
  if m.message_type = .Assistant then
    Json.obj [("role", .str m.message_type.to_string),
      ("content", Json.arr
        ((if m.content = "" then [] else
          [Json.obj [("type", .str "text"), ("text", .str m.content)]]) ++
          (m.tool_calls.getD []).map toolUseJson))]
  else
    Json.obj [("role", .str m.message_type.to_string), ("content", .str m.content)]

/-- The peekable scan of `AnthropicClient::format_messages`: `some acc`
holds the tool-result blocks of the run of adjacent tool-result messages
currently being coalesced. -/
def formatMessagesGo : Option (List Json) → List Message → List Json
  | none, [] => []
  | some acc, [] => [toolResultUserMsg acc]
  | none, m :: rest =>
    if m.message_type = .FunctionCallOutput then
      formatMessagesGo (some (toolResultsOf m)) rest
    else
      anthropicPlainMsgJson m :: formatMessagesGo none rest
  | some acc, m :: rest =>
    if m.message_type = .FunctionCallOutput then
      formatMessagesGo (some (acc ++ toolResultsOf m)) rest
    else
      toolResultUserMsg acc :: anthropicPlainMsgJson m :: formatMessagesGo none rest

/-- `AnthropicClient::format_messages` (anthropic.rs). -/
def format_messages (chat_history : List Message) : List Json :=
  formatMessagesGo none chat_history

theorem formatMessagesGo_run (run : List Message) :
    ∀ (acc : List Json) (rest : List Message),
    (∀ m ∈ run, m.message_type = .FunctionCallOutput) →
    (∀ m, rest.head? = some m → m.message_type ≠ .FunctionCallOutput) →
    formatMessagesGo (some acc) (run ++ rest) =
      toolResultUserMsg (acc ++ run.filterMap
        (fun m => m.tool_call_id.map (fun id => toolResultJson id m.content))) ::
        format_messages rest := by
  induction run with
  | nil =>
    intro acc rest _ hrest
    cases rest with
    | nil => simp [formatMessagesGo, format_messages]
    | cons r rt =>
      have hr : r.message_type ≠ .FunctionCallOutput := hrest r rfl
      simp [formatMessagesGo, format_messages, hr]
  | cons m run' ih =>
    intro acc rest hall hrest
    have hm : m.message_type = .FunctionCallOutput := hall m (List.mem_cons_self m run')
    have hall' : ∀ x ∈ run', x.message_type = .FunctionCallOutput :=
      fun x hx => hall x (List.mem_cons_of_mem m hx)
    simp only [List.cons_append, formatMessagesGo, hm, eq_self_iff_true, if_true,
      List.append_eq]
    rw [ih (acc ++ toolResultsOf m) rest hall' hrest]
    cases hid : m.tool_call_id <;>
      simp [toolResultsOf, hid, List.filterMap_cons, List.append_assoc]

/-- C2 (as amended): going through `format_messages`, a maximal nonempty
run of adjacent ToolResult messages is coalesced into a single
`role=user` message whose content array holds one
`{type: tool_result, tool_use_id, content}` block per run member that
carries a `tool_call_id`, in their original order, followed by the
translation of the remaining history. -/
theorem c2_anthropic_tool_result_coalescing (run rest : List Message)
    (hne : run ≠ [])
    (hall : ∀ m ∈ run, m.message_type = .FunctionCallOutput)
    (hrest : ∀ m, rest.head? = some m → m.message_type ≠ .FunctionCallOutput) :
    format_messages (run ++ rest) =
      toolResultUserMsg (run.filterMap
        (fun m => m.tool_call_id.map (fun id => toolResultJson id m.content))) ::
        format_messages rest := by
  cases run with
  | nil => exact absurd rfl hne
  | cons m run' =>
    have hm : m.message_type = .FunctionCallOutput := hall m (List.mem_cons_self m run')
    have hall' : ∀ x ∈ run', x.message_type = .FunctionCallOutput :=
      fun x hx => hall x (List.mem_cons_of_mem m hx)
    show formatMessagesGo none (m :: (run' ++ rest)) = _
    simp only [formatMessagesGo, hm, eq_self_iff_true, if_true, List.append_eq]
    rw [formatMessagesGo_run run' (toolResultsOf m) rest hall' hrest]
    cases hid : m.tool_call_id <;>
      simp [toolResultsOf, hid, List.filterMap_cons]

/-- A canonical message with the given role and content and every other
field at its default. -/
def baseMsg (t : MessageType) (content : String) : Message :=
  { message_type := t
    content := content
    api := .Anthropic .ClaudeSonnet4
    system_prompt := ""
    tool_calls := none
    tool_call_id := none
    name := none
    input_tokens := 0
    output_tokens := 0 }

/-- A tool-result message carrying a `tool_call_id`. -/
def toolResultMsgW (id content : String) : Message :=
  { baseMsg .FunctionCallOutput content with tool_call_id := some id }

/-- An Assistant turn with empty text and one tool call. -/
def assistantToolMsgW : Message :=
  { baseMsg .Assistant "" with
    tool_calls := some [⟨"call-9", "function", ⟨"lookup", "\x7b\x7d"⟩⟩] }

/-- C2 witness: the history `[User("Q"), ToolResult(id=1), ToolResult(id=2),
Assistant(tool_calls)]` translates to exactly 3 messages, with message[1]
a single `role=user` turn whose content array has length 2, ids "1" then
"2" in order. -/
theorem c2_anthropic_tool_result_coalescing_witness :
    format_messages
      [baseMsg .User "Q", toolResultMsgW "1" "r1", toolResultMsgW "2" "r2",
       assistantToolMsgW] =
      [Json.obj [("role", .str "user"), ("content", .str "Q")],
       toolResultUserMsg [toolResultJson "1" "r1", toolResultJson "2" "r2"],
       Json.obj [("role", .str "assistant"), ("content", Json.arr
         [Json.obj [("type", .str "tool_use"), ("id", .str "call-9"),
           ("name", .str "lookup"), ("input", Json.obj [])]])]] := by
  have h := c2_anthropic_tool_result_coalescing
    [toolResultMsgW "1" "r1", toolResultMsgW "2" "r2"] [assistantToolMsgW]
    (by simp) (by decide) (by intro m hm; injection hm with h2; subst h2; decide)
  have h2 : format_messages
      [baseMsg .User "Q", toolResultMsgW "1" "r1", toolResultMsgW "2" "r2",
       assistantToolMsgW] =
      Json.obj [("role", .str "user"), ("content", .str "Q")] ::
        format_messages
          ([toolResultMsgW "1" "r1", toolResultMsgW "2" "r2"] ++ [assistantToolMsgW]) := rfl
  rw [h2, h]
  rfl

/-- Gemini role mapping (gemini.rs `build_request`): User and Assistant
map to the wire roles; the wildcard arm panics, modelled as a translator
error. -/
def geminiRole (t : MessageType) : Except String String :=
  match t with
  | .User => .ok "user"
  | .Assistant => .ok "model"
  | _ => .error "Unsupported message type for Gemini"

/-- One entry of the Gemini `contents` array. -/
def geminiContentJson (m : Message) (role : String) : Json :=
  Json.obj [("parts", Json.arr [Json.obj [("text", .str m.content)]]),
    ("role", .str role)]

/-- The `system_instruction` field carrying the system prompt. -/
def geminiSystemInstruction (system_prompt : String) : Json :=
  Json.obj [("parts", Json.arr [Json.obj [("text", .str system_prompt)]])]

/-- Collect element results left to right, stopping at the first error
(`Iterator::collect::<Result<Vec<_>, _>>` semantics; here the panic on
the first unsupported message). -/
def collectExcept (f : Message → Except String Json) : List Message → Except String (List Json)
  | [] => .ok []
  | m :: rest => (f m).bind fun j => (collectExcept f rest).map (j :: ·)

/-- gemini.rs `build_request`: the JSON body (tools are ignored by the
source; the panic on an unsupported role is the failure case). -/
def gemini_build_request_body (system_prompt : String)
    (chat_history : List Message) : Except String Json :=
  (collectExcept (fun m => (geminiRole m.message_type).map (geminiContentJson m))
      chat_history).map
    fun contents => Json.obj [("contents", Json.arr contents),
      ("system_instruction", geminiSystemInstruction system_prompt)]

theorem geminiCollect_ok (hist : List Message)
    (h : ∀ m ∈ hist, m.message_type = .User ∨ m.message_type = .Assistant) :
    collectExcept (fun m => (geminiRole m.message_type).map (geminiContentJson m)) hist =
      .ok (hist.map fun m =>
        geminiContentJson m (if m.message_type = .User then "user" else "model")) := by
  induction hist with
  | nil => rfl
  | cons m t ih =>
    have ht := fun x hx => h x (List.mem_cons_of_mem m hx)
    have hrole : geminiRole m.message_type =
        .ok (if m.message_type = .User then "user" else "model") := by
      rcases h m (List.mem_cons_self m t) with hu | ha
      · simp [hu, geminiRole]
      · simp [ha, geminiRole]
    simp only [collectExcept, hrole, List.map_cons]
    rw [ih ht]
    rfl

theorem geminiCollect_error (hist : List Message)
    (h : ∃ m ∈ hist, m.message_type ≠ .User ∧ m.message_type ≠ .Assistant) :
    collectExcept (fun m => (geminiRole m.message_type).map (geminiContentJson m)) hist =
      .error "Unsupported message type for Gemini" := by
  induction hist with
  | nil =>
    rcases h with ⟨m, hm, _⟩
    simp at hm
  | cons m t ih =>
    rcases h with ⟨x, hx, hbad⟩
    rcases List.mem_cons.mp hx with rfl | hxt
    · have hr : geminiRole x.message_type = .error "Unsupported message type for Gemini" := by
        cases hmt : x.message_type <;> simp_all [geminiRole]
      simp only [collectExcept, hr]
      rfl
    · cases hmt : m.message_type
      case User =>
        have hrole : geminiRole m.message_type = .ok "user" := by rw [hmt] ; rfl
        simp only [collectExcept, hrole]
        rw [ih ⟨x, hxt, hbad⟩]
        rfl
      case Assistant =>
        have hrole : geminiRole m.message_type = .ok "model" := by rw [hmt] ; rfl
        simp only [collectExcept, hrole]
        rw [ih ⟨x, hxt, hbad⟩]
        rfl
      all_goals
        have hrole : geminiRole m.message_type =
            .error "Unsupported message type for Gemini" := by rw [hmt] ; rfl
        simp only [collectExcept, hrole]
        rfl

/-- C8: the Gemini request translator maps User to "user" and Assistant
to "model"; a conversation containing a message of any other role
(System included) fails fast as a translator error; on supported
histories the body carries the system prompt only in the separate
`system_instruction` field, the `contents` array depending on the
history alone. -/
theorem c8_gemini_role_mapping :
    (geminiRole .User = .ok "user") ∧
    (geminiRole .Assistant = .ok "model") ∧
    (∀ t : MessageType, t ≠ .User → t ≠ .Assistant →
      geminiRole t = .error "Unsupported message type for Gemini") ∧
    (∀ (sp : String) (hist : List Message),
      (∃ m ∈ hist, m.message_type ≠ .User ∧ m.message_type ≠ .Assistant) →
      gemini_build_request_body sp hist = .error "Unsupported message type for Gemini") ∧
    (∀ (sp : String) (hist : List Message),
      (∀ m ∈ hist, m.message_type = .User ∨ m.message_type = .Assistant) →
      gemini_build_request_body sp hist = .ok (Json.obj
        [("contents", Json.arr (hist.map fun m =>
          geminiContentJson m (if m.message_type = .User then "user" else "model"))),
         ("system_instruction", geminiSystemInstruction sp)])) := by
  refine ⟨rfl, rfl, ?_, ?_, ?_⟩
  · intro t hu ha
    cases t <;> simp_all [geminiRole]
  · intro sp hist h
    unfold gemini_build_request_body
    rw [geminiCollect_error hist h]
    rfl
  · intro sp hist h
    unfold gemini_build_request_body
    rw [geminiCollect_ok hist h]
    rfl

/-- C8 witness: a supported two-turn history translates with the mapped
roles and the prompt in `system_instruction`; a history with a
mid-conversation System message is a translator error. -/
theorem c8_gemini_role_mapping_witness :
    gemini_build_request_body "be brief" [baseMsg .User "hi", baseMsg .Assistant "hello"] =
      .ok (Json.obj
        [("contents", Json.arr
          [geminiContentJson (baseMsg .User "hi") "user",
           geminiContentJson (baseMsg .Assistant "hello") "model"]),
         ("system_instruction", geminiSystemInstruction "be brief")]) ∧
    gemini_build_request_body "be brief" [baseMsg .User "hi", baseMsg .System "mid"] =
      .error "Unsupported message type for Gemini" := by
  constructor
  · have h := c8_gemini_role_mapping.2.2.2.2 "be brief"
      [baseMsg .User "hi", baseMsg .Assistant "hello"] (by decide)
    rw [h]
    rfl
  · exact c8_gemini_role_mapping.2.2.2.1 "be brief"
      [baseMsg .User "hi", baseMsg .System "mid"]
      ⟨baseMsg .System "mid", by simp, by decide, by decide⟩

/-- `types::Tool`: a callable capability (the invocation function is the
`Box<dyn ToolFunction>`). -/
structure Tool where
  function_type : String
  name : String
  description : String
  parameters : Json
  function : Json → Json

/-- Collect element results left to right, `None` as soon as one element
fails (models a panic inside the mapping closure). -/
def collectOption (f : Message → Option Json) : List Message → Option (List Json)
  | [] => some []
  | m :: rest => (f m).bind fun j => (collectOption f rest).map (j :: ·)

/-- Serde serialization of a `FunctionCall` (field order id, type,
function{name, arguments}). -/
def functionCallJson (c : FunctionCall) : Json :=
  Json.obj [("id", .str c.id), ("type", .str c.call_type),
    ("function", Json.obj [("name", .str c.function.name),
      ("arguments", .str c.function.arguments)])]

/-- `serde_json::json!(message.tool_calls)`: `Null` for `None`. -/
def toolCallsJson : Option (List FunctionCall) → Json
  | none => .null
  | some calls => Json.arr (calls.map functionCallJson)

/-- One entry of OpenAI's `messages` array (openai.rs `build_request`):
role and content, a FunctionCall turn rewritten to role `assistant` with
placeholder name `idk` plus its serialized `tool_calls`, a tool-result
turn carrying its `tool_call_id`; `none` models the
`tool_call_id.unwrap()` panic on a tool result without an id. -/
def openaiMessageJson (m : Message) : Option Json :=
  let base := Json.obj [("role", .str m.message_type.to_string),
    ("content", .str m.content)]
  if m.message_type = .FunctionCall then
    some (jSet (jSet (jSet base "role" (.str "assistant")) "name" (.str "idk"))
      "tool_calls" (toolCallsJson m.tool_calls))
  else if m.message_type = .FunctionCallOutput then
    match m.tool_call_id with
    | some id => some (jSet base "tool_call_id" (.str id))
    | none => none
  else
    some base

/-- An OpenAI tool definition nested under `function`. -/
def openaiToolJson (t : Tool) : Json :=
  Json.obj [("type", .str "function"),
    ("function", Json.obj [("name", .str t.name),
      ("description", .str t.description), ("parameters", t.parameters)])]

/-- The leading System-role message the system prompt is flattened into. -/
def openaiSystemMsg (model : OpenAIModel) (system_prompt : String) : Message :=
  { message_type := .System
    content := system_prompt
    api := .OpenAI model
    system_prompt := system_prompt
    tool_calls := none
    tool_call_id := none
    name := none
    input_tokens := 0
    output_tokens := 0 }

/-- openai.rs `build_request`: the JSON body, with the reasoning-effort
injection for the designated reasoning model. -/
def openai_build_request_body (model : OpenAIModel) (system_prompt : String)
    (chat_history : List Message) (tools : Option (List Tool))
    (stream : Bool) : Option Json :=
  (collectOption openaiMessageJson
      (openaiSystemMsg model system_prompt :: chat_history)).map fun msgs =>
    let body := Json.obj [("model", .str model.modelStr),
      ("messages", Json.arr msgs), ("stream", .bool stream)]
    let body := if model.modelStr = "gpt-5" then
      jSet body "reasoning_effort" (.str "minimal") else body
    match tools with
    | some ts => jSet body "tools" (Json.arr (ts.map openaiToolJson))
    | none => body

/-- C9: the OpenAI request translator injects `reasoning_effort` (with
value "minimal") into the body if and only if the bound model is the
designated reasoning model `gpt-5`; for every other model the field is
never present. -/
theorem c9_openai_reasoning_effort (model : OpenAIModel) (sp : String)
    (hist : List Message) (tools : Option (List Tool)) (stream : Bool)
    (body : Json)
    (h : openai_build_request_body model sp hist tools stream = some body) :
    ((jGet body "reasoning_effort").isSome ↔ model = .GPT5) ∧
    (model = .GPT5 → jGet body "reasoning_effort" = some (.str "minimal")) ∧
    (model ≠ .GPT5 → jGet body "reasoning_effort" = none) := by
  cases hc : collectOption openaiMessageJson (openaiSystemMsg model sp :: hist) with
  | none =>
    rw [openai_build_request_body, hc] at h
    simp at h
  | some msgs =>
    rw [openai_build_request_body, hc] at h
    simp only [Option.map] at h
    injection h with h2
    subst h2
    cases model <;> cases tools <;>
      simp [jGet, jSet, OpenAIModel.modelStr, Json.obj]

/-- C9 witness: the body built for `gpt-5` carries
`reasoning_effort: "minimal"`, the body built for `gpt-4o-mini` has no
such field. -/
theorem c9_openai_reasoning_effort_witness :
    openai_build_request_body .GPT5 "s" [] none false = some (Json.obj
      [("model", .str "gpt-5"),
       ("messages", Json.arr [Json.obj [("role", .str "system"), ("content", .str "s")]]),
       ("stream", .bool false), ("reasoning_effort", .str "minimal")]) ∧
    jGet (Json.obj
      [("model", .str "gpt-5"),
       ("messages", Json.arr [Json.obj [("role", .str "system"), ("content", .str "s")]]),
       ("stream", .bool false), ("reasoning_effort", .str "minimal")])
      "reasoning_effort" = some (.str "minimal") ∧
    openai_build_request_body .GPT4oMini "s" [] none false = some (Json.obj
      [("model", .str "gpt-4o-mini"),
       ("messages", Json.arr [Json.obj [("role", .str "system"), ("content", .str "s")]]),
       ("stream", .bool false)]) ∧
    jGet (Json.obj
      [("model", .str "gpt-4o-mini"),
       ("messages", Json.arr [Json.obj [("role", .str "system"), ("content", .str "s")]]),
       ("stream", .bool false)]) "reasoning_effort" = none :=
  ⟨rfl,
   (c9_openai_reasoning_effort .GPT5 "s" [] none false _ rfl).2.1 rfl,
   rfl,
   (c9_openai_reasoning_effort .GPT4oMini "s" [] none false _ rfl).2.2 (by decide)⟩

/-- `Value::as_u64` restricted to the integers of this model. -/
def jAsNat (j : Json) : Option Nat :=
  match j with
  | .num n => if 0 ≤ n then some n.toNat else none
  | _ => none

/-- Serde deserialization of one `FunctionCall` from a response JSON
object (unknown fields ignored, missing or ill-typed fields an error). -/
def decodeFunctionCall (j : Json) : Option FunctionCall :=
  match (jGet j "id").bind jAsStr, (jGet j "type").bind jAsStr,
      ((jGet j "function").bind (jGet · "name")).bind jAsStr,
      ((jGet j "function").bind (jGet · "arguments")).bind jAsStr with
  | some id, some ty, some nm, some args => some ⟨id, ty, ⟨nm, args⟩⟩
  | _, _, _, _ => none

/-- Deserialize each element of a `tool_calls` array. -/
def decodeFunctionCallList : List Json → Option (List FunctionCall)
  | [] => some []
  | j :: rest =>
    (decodeFunctionCall j).bind fun c => (decodeFunctionCallList rest).map (c :: ·)

/-- `serde_json::from_value::<Vec<FunctionCall>>`. -/
def decodeFunctionCalls (j : Json) : Option (List FunctionCall) :=
  (jAsArr j).bind decodeFunctionCallList

/-- Tool lookup through the `HashMap` collected from the tool list (a
later duplicate name overwrites an earlier one). -/
def lookupTool (tools : List Tool) (nm : String) : Option Tool :=
  tools.reverse.find? (fun t => t.name == nm)

/-- The per-call body shared by both tool loops: optionally announce the
call on the observer channel, look the tool up (failing with "tool <name>
not found"), parse its JSON argument string (failing on a parse error),
run it, and append the stringified output as a ToolResult message. -/
def runToolCalls (tx : Bool) (api : API) (sys : String) (tools : List Tool) :
    List FunctionCall → List Message → List String →
    Except String (List Message × List String)
  | [], hist, sent => .ok (hist, sent)
  | call :: rest, hist, sent =>
    let sent := if tx then sent ++ ["calling tool " ++ call.function.name ++ "..."] else sent
    match lookupTool tools call.function.name with
    | none => .error ("tool " ++ call.function.name ++ " not found")
    | some tool =>
      match parseJson call.function.arguments with
      | none => .error "invalid tool arguments"
      | some args =>
        runToolCalls tx api sys tools rest
          (hist ++ [{ message_type := .FunctionCallOutput
                      content := jsonToString (tool.function args)
                      api := api
                      system_prompt := sys
                      tool_call_id := some call.id
                      tool_calls := none
                      name := some tool.name
                      input_tokens := 0
                      output_tokens := 0 }])
          sent

/-- openai.rs `prompt_with_tools_internal`, with the provider's response
sequence supplied explicitly (the mocked HTTP exchange): loop until a
response carries plain message content, executing requested tool calls
in order; returns the extended history and the observer-channel
messages. -/
def openaiPromptWithTools (tx : Bool) (model : OpenAIModel) (sys : String) :
    List Json → List Message → List Tool → List String →
    Except String (List Message × List String)
  | [], _, _, _ => .error "no response from transport"
  | r :: rs, hist, tools, sent =>
    let api := API.OpenAI model
    let usage := (jGet r "usage").getD
      (Json.obj [("input_tokens", .num 0), ("completion_tokens", .num 0)])
    match ((((jGet r "choices").bind (jIdx · 0)).bind (jGet · "message")).bind
        (jGet · "content")).bind jAsStr with
    | some content0 =>
      .ok (hist ++ [{ message_type := .Assistant
                      content := normalize content0
                      api := api
                      system_prompt := sys
                      tool_call_id := none
                      tool_calls := none
                      name := none
                      input_tokens := (jAsNat (jField usage "prompt_tokens")).getD 0
                      output_tokens := (jAsNat (jField usage "completion_tokens")).getD 0 }],
        sent)
    | none =>
      match (((jGet r "choices").bind (jIdx · 0)).bind (jGet · "message")).bind
          (jGet · "tool_calls") with
      | none => .error "Missing both content and tool calls"
      | some tc =>
        match decodeFunctionCalls tc with
        | none => .error "invalid tool_calls value"
        | some calls =>
          match runToolCalls tx api sys tools calls
              (hist ++ [{ message_type := .FunctionCall
                          content := ""
                          api := api
                          system_prompt := ""
                          tool_call_id := none
                          tool_calls := some calls
                          name := none
                          input_tokens := (jAsNat (jField usage "prompt_tokens")).getD 0
                          output_tokens := (jAsNat (jField usage "completion_tokens")).getD 0 }])
              sent with
          | .error e => .error e
          | .ok (hist2, sent2) => openaiPromptWithTools tx model sys rs hist2 tools sent2

/-- An observable event of the Anthropic tool loop: a message sent on the
observer channel, a line printed to stderr, or an outbound HTTP
request. -/
inductive AEvent where
  | chanSend (msg : String)
  | stderrLine (msg : String)
  | httpRequest
deriving DecidableEq, Repr

/-- The per-call body of the Anthropic loop (same structure as
`runToolCalls`, recorded on the event trace). -/
def runToolCallsA (tx : Bool) (api : API) (sys : String) (tools : List Tool) :
    List FunctionCall → List Message → List AEvent →
    (Except String (List Message)) × List AEvent
  | [], hist, evs => (.ok hist, evs)
  | call :: rest, hist, evs =>
    let evs := if tx then
      evs ++ [AEvent.chanSend ("calling tool " ++ call.function.name ++ "...")] else evs
    match lookupTool tools call.function.name with
    | none => (.error ("tool " ++ call.function.name ++ " not found"), evs)
    | some tool =>
      match parseJson call.function.arguments with
      | none => (.error "invalid tool arguments", evs)
      | some args =>
        runToolCallsA tx api sys tools rest
          (hist ++ [{ message_type := .FunctionCallOutput
                      content := jsonToString (tool.function args)
                      api := api
                      system_prompt := sys
                      tool_call_id := some call.id
                      tool_calls := none
                      name := some tool.name
                      input_tokens := 0
                      output_tokens := 0 }])
          evs

/-- All strings of the text blocks of an Anthropic `content` array,
joined (`.join("")`). -/
def anthropicTextContent (items : List Json) : String :=
  ((items.filter (fun item => jField item "type" == Json.str "text")).filterMap
    (fun t => jAsStr (jField t "text"))).foldl (· ++ ·) ""

/-- The `FunctionCall`s decoded from the `tool_use` blocks of an
Anthropic `content` array (missing ids and names default to empty,
arguments are the serialized `input`). -/
def anthropicToolCalls (items : List Json) : List FunctionCall :=
  (items.filter (fun item => jField item "type" == Json.str "tool_use")).map
    fun tu => ⟨((jAsStr (jField tu "id")).getD ""), "function",
      ⟨((jAsStr (jField tu "name")).getD ""), jsonToString (jField tu "input")⟩⟩

/-- The request/decode loop of anthropic.rs `prompt_with_tools_internal`
(after the experimental warning): each iteration sends one request and
consumes one mocked response; `stop_reason == "tool_use"` continues the
loop, anything else decodes the final assistant text. -/
def anthropicToolLoop (tx : Bool) (model : AnthropicModel) (sys : String) :
    List Json → List Message → List Tool → List AEvent →
    (Except String (List Message)) × List AEvent
  | [], _, _, evs => (.error "no response from transport", evs ++ [AEvent.httpRequest])
  | r :: rs, hist, tools, evs =>
    let evs := evs ++ [AEvent.httpRequest]
    let api := API.Anthropic model
    let stop_reason := ((jGet r "stop_reason").bind jAsStr).getD ""
    if stop_reason ≠ "tool_use" then
      match anthropic_read_json_response r with
      | .error e => (.error e, evs)
      | .ok content0 =>
        (.ok (hist ++ [{ message_type := .Assistant
                         content := normalize content0
                         api := api
                         system_prompt := sys
                         tool_call_id := none
                         tool_calls := none
                         name := none
                         input_tokens := 0
                         output_tokens := 0 }]), evs)
    else
      match (jGet r "content").bind jAsArr with
      | none => (.error "Missing both content and tool calls", evs)
      | some items =>
        match runToolCallsA tx api sys tools (anthropicToolCalls items)
            (hist ++ [{ message_type := .Assistant
                        content := anthropicTextContent items
                        api := api
                        system_prompt := ""
                        tool_call_id := none
                        tool_calls := some (anthropicToolCalls items)
                        name := some "?"
                        input_tokens := 0
                        output_tokens := 0 }])
            evs with
        | (.error e, evs2) => (.error e, evs2)
        | (.ok hist2, evs2) => anthropicToolLoop tx model sys rs hist2 tools evs2

/-- anthropic.rs `prompt_with_tools_internal`: emit the experimental
warning (on the observer channel when one is wired, to stderr otherwise)
before anything else, then run the loop. -/
def anthropicPromptWithTools (tx : Bool) (model : AnthropicModel) (sys : String)
    (responses : List Json) (hist : List Message) (tools : List Tool) :
    (Except String (List Message)) × List AEvent :=
  anthropicToolLoop tx model sys responses hist tools
    (if tx then [AEvent.chanSend "warn: anthropic tool support is experimental"]
     else [AEvent.stderrLine "warn: anthropic tool support is experimental and may fail"])

/-- A mocked OpenAI response requesting exactly one tool call. -/
def openaiToolCallResponse (id nm argsStr : String) : Json :=
  Json.obj [("choices", Json.arr [Json.obj [("message", Json.obj
    [("content", Json.null),
     ("tool_calls", Json.arr [Json.obj [("id", .str id), ("type", .str "function"),
        ("function", Json.obj [("name", .str nm), ("arguments", .str argsStr)])]])])]])]

/-- A mocked OpenAI response carrying plain text. -/
def openaiTextResponse (txt : String) : Json :=
  Json.obj [("choices", Json.arr [Json.obj [("message", Json.obj
    [("content", .str txt)])]])]

/-- A mocked Anthropic response requesting exactly one tool call. -/
def anthropicToolUseResponse (id nm : String) (input : Json) : Json :=
  Json.obj [("stop_reason", .str "tool_use"), ("content", Json.arr
    [Json.obj [("type", .str "tool_use"), ("id", .str id), ("name", .str nm),
      ("input", input)]])]

/-- A mocked Anthropic response carrying plain text. -/
def anthropicTextResponse (txt : String) : Json :=
  Json.obj [("content", Json.arr [Json.obj [("type", .str "text"),
    ("text", .str txt)]])]

/-- A tool with the given name and invocation function. -/
def mkTool (nm : String) (f : Json → Json) : Tool :=
  ⟨"function", nm, "", Json.obj [], f⟩

/-- C1 counterexample: in the OpenAI tool loop's two-turn exchange the
second history entry — the turn carrying the tool calls — has the
`FunctionCall` message type (serialized with role `assistant`), not the
`Assistant` type the claim's `[User, Assistant(tool_calls), ToolResult,
Assistant(text)]` shape asserts. -/
theorem c1_openai_tool_turn_not_assistant_typed :
    ((openaiPromptWithTools true .GPT4oMini "sys"
        [openaiToolCallResponse "call-1" "echo" "\x7b\x7d", openaiTextResponse "All done."]
        [baseMsg .User "q"] [mkTool "echo" (fun _ => Json.str "ok")] []).toOption.bind
      (fun p => (p.1.get? 1).map Message.message_type)) = some .FunctionCall ∧
    MessageType.FunctionCall ≠ MessageType.Assistant :=
  ⟨rfl, by decide⟩

/-- The ToolResult message appended after executing one tool call. -/
def fcoMsg (api : API) (sys id nm out : String) : Message :=
  { message_type := .FunctionCallOutput
    content := out
    api := api
    system_prompt := sys
    tool_call_id := some id
    tool_calls := none
    name := some nm
    input_tokens := 0
    output_tokens := 0 }

/-- The tool-call turn the OpenAI loop appends: `FunctionCall`-typed,
empty text, carrying the decoded calls. -/
def openaiFcMsg (model : OpenAIModel) (calls : List FunctionCall) : Message :=
  { message_type := .FunctionCall
    content := ""
    api := .OpenAI model
    system_prompt := ""
    tool_call_id := none
    tool_calls := some calls
    name := none
    input_tokens := 0
    output_tokens := 0 }

/-- The final Assistant message of a tool loop. -/
def asstMsg (api : API) (sys content : String) : Message :=
  { message_type := .Assistant
    content := content
    api := api
    system_prompt := sys
    tool_call_id := none
    tool_calls := none
    name := none
    input_tokens := 0
    output_tokens := 0 }

/-- The tool-call turn the Anthropic loop appends: `Assistant`-typed with
the decoded calls and placeholder name `?`. -/
def anthAsstToolMsg (model : AnthropicModel) (text : String)
    (calls : List FunctionCall) : Message :=
  { message_type := .Assistant
    content := text
    api := .Anthropic model
    system_prompt := ""
    tool_call_id := none
    tool_calls := some calls
    name := some "?"
    input_tokens := 0
    output_tokens := 0 }

/-- C1 (as amended): for a two-turn exchange whose first response
requests exactly one tool call and whose second returns plain text,
starting from one User message, the loop returns exactly
`[User, tool-call turn, ToolResult, Assistant(text)]` in that order and
the observer channel receives exactly one "calling tool <name>..."
notification — where the tool-call turn is `FunctionCall`-typed
(role `assistant` on the wire) for the OpenAI client and
`Assistant`-typed for the Anthropic client (whose channel additionally
receives the experimental warning first). -/
theorem c1_tool_loop_two_turn (model : OpenAIModel)
    (sys userText id nm argsStr txt : String) (f : Json → Json) (args : Json)
    (hparse : parseJson argsStr = some args) :
    (openaiPromptWithTools true model sys
      [openaiToolCallResponse id nm argsStr, openaiTextResponse txt]
      [baseMsg .User userText] [mkTool nm f] [] =
      .ok ([baseMsg .User userText,
            openaiFcMsg model [⟨id, "function", ⟨nm, argsStr⟩⟩],
            fcoMsg (.OpenAI model) sys id nm (jsonToString (f args)),
            asstMsg (.OpenAI model) sys (normalize txt)],
           ["calling tool " ++ nm ++ "..."])) ∧
    (anthropicPromptWithTools true .ClaudeSonnet4 "sys"
      [anthropicToolUseResponse "call-1" "echo" (Json.obj []),
       anthropicTextResponse "All done."]
      [baseMsg .User "q"] [mkTool "echo" (fun _ => Json.str "ok")] =
      (.ok [baseMsg .User "q",
            anthAsstToolMsg .ClaudeSonnet4 "" [⟨"call-1", "function", ⟨"echo", "\x7b\x7d"⟩⟩],
            fcoMsg (.Anthropic .ClaudeSonnet4) "sys" "call-1" "echo" "\"ok\"",
            asstMsg (.Anthropic .ClaudeSonnet4) "sys" "All done."],
       [AEvent.chanSend "warn: anthropic tool support is experimental",
        AEvent.httpRequest,
        AEvent.chanSend "calling tool echo...",
        AEvent.httpRequest])) := by
  constructor
  · have hlook : lookupTool [mkTool nm f] nm = some (mkTool nm f) := by
      simp [lookupTool, mkTool, List.find?]
    have hrun : ∀ (H : List Message) (S : List String),
        runToolCalls true (API.OpenAI model) sys [mkTool nm f]
          [⟨id, "function", ⟨nm, argsStr⟩⟩] H S =
        .ok (H ++ [fcoMsg (.OpenAI model) sys id nm (jsonToString (f args))],
          S ++ ["calling tool " ++ nm ++ "..."]) := by
      intro H S
      simp only [runToolCalls, hlook, hparse]
      rfl
    have h1 : openaiPromptWithTools true model sys
        [openaiToolCallResponse id nm argsStr, openaiTextResponse txt]
        [baseMsg .User userText] [mkTool nm f] [] =
        (match runToolCalls true (API.OpenAI model) sys [mkTool nm f]
            [⟨id, "function", ⟨nm, argsStr⟩⟩]
            ([baseMsg .User userText] ++
              [openaiFcMsg model [⟨id, "function", ⟨nm, argsStr⟩⟩]])
            [] with
        | .error e => .error e
        | .ok (h2, s2) =>
          openaiPromptWithTools true model sys [openaiTextResponse txt] h2
            [mkTool nm f] s2) := rfl
    rw [h1, hrun]
    rfl
  · rfl

/-- C1 witness: the amended claim at the concrete mocked exchange, tool
`echo` returning the JSON string "ok". -/
theorem c1_tool_loop_two_turn_witness :
    openaiPromptWithTools true .GPT4oMini "sys"
      [openaiToolCallResponse "call-1" "echo" "\x7b\x7d", openaiTextResponse "All done."]
      [baseMsg .User "q"] [mkTool "echo" (fun _ => Json.str "ok")] [] =
      .ok ([baseMsg .User "q",
            openaiFcMsg .GPT4oMini [⟨"call-1", "function", ⟨"echo", "\x7b\x7d"⟩⟩],
            fcoMsg (.OpenAI .GPT4oMini) "sys" "call-1" "echo" "\"ok\"",
            asstMsg (.OpenAI .GPT4oMini) "sys" "All done."],
           ["calling tool echo..."]) :=
  (c1_tool_loop_two_turn .GPT4oMini "sys" "q" "call-1" "echo" "\x7b\x7d"
    "All done." (fun _ => Json.str "ok") (Json.obj []) rfl).1

theorem runToolCallsA_events_prefix (tx : Bool) (api : API) (sys : String)
    (tools : List Tool) :
    ∀ (calls : List FunctionCall) (hist : List Message) (evs : List AEvent),
    ∃ t, (runToolCallsA tx api sys tools calls hist evs).2 = evs ++ t := by
  intro calls
  induction calls with
  | nil =>
    intro hist evs
    exact ⟨[], by simp [runToolCallsA]⟩
  | cons c rest ih =>
    intro hist evs
    have hbase : ∀ evs0 : List AEvent, ∃ t0,
        (if tx then evs0 ++
          [AEvent.chanSend ("calling tool " ++ c.function.name ++ "...")]
        else evs0) = evs0 ++ t0 := by
      intro evs0
      cases tx
      · exact ⟨[], by simp⟩
      · exact ⟨_, rfl⟩
    obtain ⟨t0, ht0⟩ := hbase evs
    cases hl : lookupTool tools c.function.name with
    | none =>
      refine ⟨t0, ?_⟩
      simp only [runToolCallsA, hl]
      exact ht0
    | some tool =>
      cases hp : parseJson c.function.arguments with
      | none =>
        refine ⟨t0, ?_⟩
        simp only [runToolCallsA, hl, hp]
        exact ht0
      | some args =>
        obtain ⟨t1, ht1⟩ := ih
          (hist ++ [{ message_type := .FunctionCallOutput
                      content := jsonToString (tool.function args)
                      api := api
                      system_prompt := sys
                      tool_call_id := some c.id
                      tool_calls := none
                      name := some tool.name
                      input_tokens := 0
                      output_tokens := 0 }])
          (if tx then evs ++
            [AEvent.chanSend ("calling tool " ++ c.function.name ++ "...")]
          else evs)
        refine ⟨t0 ++ t1, ?_⟩
        simp only [runToolCallsA, hl, hp]
        rw [ht1, ht0, List.append_assoc]

theorem anthropicToolLoop_events_prefix (tx : Bool) (model : AnthropicModel)
    (sys : String) :
    ∀ (rs : List Json) (hist : List Message) (tools : List Tool) (evs : List AEvent),
    ∃ t, (anthropicToolLoop tx model sys rs hist tools evs).2 = evs ++ t := by
  intro rs
  induction rs with
  | nil =>
    intro hist tools evs
    exact ⟨[.httpRequest], rfl⟩
  | cons r rest ih =>
    intro hist tools evs
    by_cases hs : ((jGet r "stop_reason").bind jAsStr).getD "" ≠ "tool_use"
    · cases hr : anthropic_read_json_response r with
      | error e =>
        refine ⟨[.httpRequest], ?_⟩
        simp only [anthropicToolLoop, if_pos hs, hr]
      | ok c =>
        refine ⟨[.httpRequest], ?_⟩
        simp only [anthropicToolLoop, if_pos hs, hr]
    · cases hc : (jGet r "content").bind jAsArr with
      | none =>
        refine ⟨[.httpRequest], ?_⟩
        simp only [anthropicToolLoop, if_neg hs, hc]
      | some items =>
        obtain ⟨t1, ht1⟩ := runToolCallsA_events_prefix tx (.Anthropic model) sys tools
          (anthropicToolCalls items)
          (hist ++ [{ message_type := .Assistant
                      content := anthropicTextContent items
                      api := .Anthropic model
                      system_prompt := ""
                      tool_call_id := none
                      tool_calls := some (anthropicToolCalls items)
                      name := some "?"
                      input_tokens := 0
                      output_tokens := 0 }])
          (evs ++ [.httpRequest])
        cases hrc : runToolCallsA tx (.Anthropic model) sys tools
            (anthropicToolCalls items)
            (hist ++ [{ message_type := .Assistant
                        content := anthropicTextContent items
                        api := .Anthropic model
                        system_prompt := ""
                        tool_call_id := none
                        tool_calls := some (anthropicToolCalls items)
                        name := some "?"
                        input_tokens := 0
                        output_tokens := 0 }])
            (evs ++ [.httpRequest]) with
        | mk res evs2 =>
          rw [hrc] at ht1
          dsimp only at ht1
          cases res with
          | error e =>
            refine ⟨[.httpRequest] ++ t1, ?_⟩
            simp only [anthropicToolLoop, if_neg hs, hc, hrc]
            rw [ht1, List.append_assoc]
          | ok hist2 =>
            obtain ⟨t2, ht2⟩ := ih hist2 tools evs2
            refine ⟨[.httpRequest] ++ t1 ++ t2, ?_⟩
            simp only [anthropicToolLoop, if_neg hs, hc, hrc]
            rw [ht2, ht1]
            simp [List.append_assoc]

/-- C10: with a status channel wired, the Anthropic tool loop's very
first observable event is the experimental warning sent on the channel —
before any HTTP request and before any "calling tool <name>..."
notification; with no channel the warning goes to stderr instead. -/
theorem c10_anthropic_experimental_warning (model : AnthropicModel)
    (sys : String) (responses : List Json) (hist : List Message)
    (tools : List Tool) :
    (∃ t, (anthropicPromptWithTools true model sys responses hist tools).2 =
      AEvent.chanSend "warn: anthropic tool support is experimental" :: t) ∧
    (∃ t, (anthropicPromptWithTools false model sys responses hist tools).2 =
      AEvent.stderrLine "warn: anthropic tool support is experimental and may fail" :: t) := by
  constructor
  · obtain ⟨t, ht⟩ := anthropicToolLoop_events_prefix true model sys responses hist tools
      [AEvent.chanSend "warn: anthropic tool support is experimental"]
    exact ⟨t, ht⟩
  · obtain ⟨t, ht⟩ := anthropicToolLoop_events_prefix false model sys responses hist tools
      [AEvent.stderrLine "warn: anthropic tool support is experimental and may fail"]
    exact ⟨t, ht⟩

/-- Value of one hexadecimal digit. -/
def hexDigitVal (c : Char) : Option Nat :=
  if '0' ≤ c ∧ c ≤ '9' then some (c.toNat - '0'.toNat)
  else if 'a' ≤ c ∧ c ≤ 'f' then some (c.toNat - 'a'.toNat + 10)
  else if 'A' ≤ c ∧ c ≤ 'F' then some (c.toNat - 'A'.toNat + 10)
  else none

/-- Accumulate hexadecimal digits, failing on any non-digit. -/
def hexNatAcc (acc : Nat) : List Char → Option Nat
  | [] => some acc
  | c :: rest => (hexDigitVal c).bind fun d => hexNatAcc (acc * 16 + d) rest

/-- `i64::from_str_radix(line, 16)`: optional sign, at least one digit,
all characters hexadecimal, the value within i64 range. -/
def fromStrRadix16 (l : List Char) : Option Int :=
  match l with
  | '+' :: rest =>
    if rest = [] then none
    else (hexNatAcc 0 rest).bind fun n =>
      if (n : Int) ≤ 2 ^ 63 - 1 then some (n : Int) else none
  | '-' :: rest =>
    if rest = [] then none
    else (hexNatAcc 0 rest).bind fun n =>
      if (n : Int) ≤ 2 ^ 63 then some (-(n : Int)) else none
  | rest =>
    if rest = [] then none
    else (hexNatAcc 0 rest).bind fun n =>
      if (n : Int) ≤ 2 ^ 63 - 1 then some (n : Int) else none

/-- `BufReader::read_line`: everything up to and including the first
newline (or the whole remainder when none is left), plus the rest. -/
def readLine : List Char → List Char × List Char
  | [] => ([], [])
  | c :: rest =>
    if c = '\n' then ([c], rest)
    else
      let p := readLine rest
      (c :: p.1, p.2)

/-- The text extracted from one streamed Gemini chunk:
`candidates[0].content.parts[0].text` when present. -/
def geminiChunkText (json : Json) : Option String :=
  jAsStr (jField (jAt (jField (jField (jAt (jField json "candidates") 0)
    "content") "parts") 0) "text")

/-- Fueled core of gemini.rs `process_stream`: each iteration reads one
line, skips blank or bare-comma lines and lines that fail hexadecimal
parsing, otherwise reads exactly that many bytes as the next chunk of
the virtual JSON array (`]` terminates; a chunk beginning neither with
`[` nor with `,\r\n` panics, modelled as an error), extracts the delta
text when the chunk parses, and consumes one trailing newline.  Every
iteration consumes at least one character and one unit of fuel, so fuel
one beyond the input length never runs out. -/
def geminiProcessStreamF : Nat → List Char → String → List String →
    Except String (String × List String)
  | 0, _, _, _ => .error "stream fuel exhausted"
  | fuel + 1, s, acc, sent =>
    match s with
    | [] => .ok (acc, sent)
    | c :: srest =>
      let p := readLine (c :: srest)
      let line := trimList p.1
      let s1 := p.2
      if line = [] ∨ line = [','] then geminiProcessStreamF fuel s1 acc sent
      else
        match fromStrRadix16 line with
        | none => geminiProcessStreamF fuel s1 acc sent
        | some size =>
          if size < 0 then .error "allocation of negative-size buffer"
          else
            let n := size.toNat
            if s1.length < n then .error "read_exact: unexpected end of stream"
            else
              let chunk := trimList (s1.take n)
              let s2 := s1.drop n
              if chunk = [']'] then .ok (acc, sent)
              else
                match (if chunk.head? = some '[' then some (chunk.drop 1)
                  else if [',', '\r', '\n'].isPrefixOf chunk then some (chunk.drop 3)
                  else none : Option (List Char)) with
                | none => .error "unexpected chunk format"
                | some chunkRef =>
                  let step := match parseJson ⟨chunkRef⟩ with
                    | some json =>
                      match geminiChunkText json with
                      | some text => (acc ++ text, sent ++ [text])
                      | none => (acc, sent)
                    | none => (acc, sent)
                  geminiProcessStreamF fuel (readLine s2).2 step.1 step.2

/-- gemini.rs `process_stream` over a finite byte stream: returns the
accumulated text and the deltas pushed to the observer channel. -/
def gemini_process_stream (s : List Char) : Except String (String × List String) :=
  geminiProcessStreamF (s.length + 1) s "" []

theorem readLine_append (l rest : List Char) (h : '\n' ∉ l) :
    readLine (l ++ '\n' :: rest) = (l ++ ['\n'], rest) := by
  induction l with
  | nil => simp [readLine]
  | cons c lr ih =>
    have hc : c ≠ '\n' := fun he => h (he ▸ List.mem_cons_self c lr)
    have hlr : '\n' ∉ lr := fun hm => h (List.mem_cons_of_mem c hm)
    simp [readLine, hc, ih hlr]

theorem dropWhile_append_cases (p : Char → Bool) (l1 l2 : List Char) :
    List.dropWhile p (l1 ++ l2) =
      if List.dropWhile p l1 = [] then List.dropWhile p l2
      else List.dropWhile p l1 ++ l2 := by
  induction l1 with
  | nil => simp
  | cons c t ih =>
    by_cases hc : p c
    · simpa [List.dropWhile_cons, hc] using ih
    · simp [List.dropWhile_cons, hc]

theorem trimList_concat_newline (l : List Char) :
    trimList (l ++ ['\n']) = trimList l := by
  unfold trimList
  rw [dropWhile_append_cases]
  by_cases hd : List.dropWhile isWsChar l = []
  · simp [hd, List.dropWhile_cons, isWsChar]
  · rw [if_neg hd, List.reverse_append]
    simp [List.dropWhile_cons, isWsChar]

/-- C7 (as amended): in the Gemini streaming decoder a size line whose
content fails hexadecimal parsing is treated as "not a size line" and
skipped, decoding continuing at the next line; a size line of hex value
`0`, however, is accepted as a size, reads an empty chunk, and fails the
chunk-format check instead of being skipped. -/
theorem c7_gemini_size_line_handling :
    (∀ (fuel : Nat) (lineRaw rest : List Char) (acc : String) (sent : List String),
      '\n' ∉ lineRaw → trimList lineRaw ≠ [] → trimList lineRaw ≠ [','] →
      fromStrRadix16 (trimList lineRaw) = none →
      geminiProcessStreamF (fuel + 1) (lineRaw ++ '\n' :: rest) acc sent =
        geminiProcessStreamF fuel rest acc sent) ∧
    gemini_process_stream ("0\r\n1\r\n]\r\n".data) = .error "unexpected chunk format" := by
  constructor
  · intro fuel lineRaw rest acc sent hnl hne hcomma hhex
    cases lineRaw with
    | nil => exact absurd (rfl : trimList [] = []) hne
    | cons c lr =>
      have hr : readLine ((c :: lr) ++ '\n' :: rest) = ((c :: lr) ++ ['\n'], rest) :=
        readLine_append _ _ hnl
      simp only [List.cons_append] at hr
      show geminiProcessStreamF (fuel + 1) (c :: (lr ++ '\n' :: rest)) acc sent = _
      simp only [geminiProcessStreamF]
      rw [hr, ← List.cons_append c lr ['\n'], trimList_concat_newline]
      rw [if_neg (by simp [hne, hcomma]), hhex]
  · rfl

/-- C7 counterexample: the claim as stated says the hex-`0` size line is
skipped with decoding continuing at the next line; on the stream
`"0\r\n1\r\n]\r\n"` the decoder instead aborts with the chunk-format
panic, while the remainder `"1\r\n]\r\n"` alone decodes cleanly. -/
theorem c7_gemini_zero_size_line_not_skipped :
    gemini_process_stream ("0\r\n1\r\n]\r\n".data) = .error "unexpected chunk format" ∧
    gemini_process_stream ("1\r\n]\r\n".data) = .ok ("", []) :=
  ⟨rfl, rfl⟩

/-- C7 witness: a concrete unparsable size line `"zz\r"` is skipped and
decoding continues at the next line. -/
theorem c7_gemini_size_line_handling_witness :
    '\n' ∉ ("zz\r".data) ∧ trimList ("zz\r".data) ≠ [] ∧
    trimList ("zz\r".data) ≠ [','] ∧
    fromStrRadix16 (trimList ("zz\r".data)) = none ∧
    geminiProcessStreamF 6 ("zz\r".data ++ '\n' :: "1\r\n]\r\n".data) "" [] =
      geminiProcessStreamF 5 ("1\r\n]\r\n".data) "" [] :=
  ⟨by decide, by decide, by decide, by decide,
   c7_gemini_size_line_handling.1 5 ("zz\r".data) ("1\r\n]\r\n".data) "" []
     (by decide) (by decide) (by decide) (by decide)⟩

/-- C3: for every `ProviderModel` variant, converting the enum to its wire
string and re-parsing yields the original variant, and every wire string
accepted by `from_strings` is reproduced exactly by `to_strings`
(so `to_wire_string(from_wire_string(s)) == s` for all documented wire
strings). -/
theorem c3_provider_model_roundtrip :
    (∀ api : API, API.from_strings api.to_strings.1 api.to_strings.2 = .ok api) ∧
    (∀ (provider model : String) (api : API),
      API.from_strings provider model = .ok api → api.to_strings = (provider, model)) := by
  constructor
  · intro api
    cases api with
    | OpenAI m => cases m <;> rfl
    | Anthropic m => cases m <;> rfl
    | Gemini m => cases m <;> rfl
  · intro provider model api h
    unfold API.from_strings at h
    split at h <;> (try split at h) <;>
      first
        | (injection h with h2 ; subst h2 ; rfl)
        | simp at h

/-- C3 witness: both round-trip directions at concrete documented
strings. -/
theorem c3_provider_model_roundtrip_witness :
    (API.OpenAI .GPT4o).to_strings = ("openai", "gpt-4o") ∧
    API.from_strings "anthropic" "claude-3-opus-20240229" = .ok (.Anthropic .Claude3Opus) :=
  ⟨c3_provider_model_roundtrip.2 "openai" "gpt-4o" (.OpenAI .GPT4o) rfl,
   c3_provider_model_roundtrip.1 (.Anthropic .Claude3Opus)⟩

/-- C4: decoding the empty JSON object with each provider's non-streaming
response decoder returns the typed error naming the exact missing path,
and on every JSON body the decoder either succeeds or returns that named
error (it never panics). -/
theorem c4_missing_field_decode :
    openai_read_json_response (Json.obj []) =
      .error "Missing 'choices[0].message.content'" ∧
    anthropic_read_json_response (Json.obj []) =
      .error "Missing 'content[0].text'" ∧
    gemini_read_json_response (Json.obj []) =
      .error "Missing 'candidates[0].content.parts[0].text'" ∧
    (∀ j : Json, (∃ s, openai_read_json_response j = .ok s) ∨
      openai_read_json_response j = .error "Missing 'choices[0].message.content'") ∧
    (∀ j : Json, (∃ s, anthropic_read_json_response j = .ok s) ∨
      anthropic_read_json_response j = .error "Missing 'content[0].text'") ∧
    (∀ j : Json, (∃ s, gemini_read_json_response j = .ok s) ∨
      gemini_read_json_response j = .error "Missing 'candidates[0].content.parts[0].text'") := by
  refine ⟨rfl, rfl, rfl, ?_, ?_, ?_⟩
  · intro j
    cases h : ((((jGet j "choices").bind (jIdx · 0)).bind
        (jGet · "message")).bind (jGet · "content")).bind jAsStr with
    | some s => exact Or.inl ⟨s, by simp [openai_read_json_response, h]⟩
    | none => exact Or.inr (by simp [openai_read_json_response, h])
  · intro j
    cases h : (((jGet j "content").bind (jIdx · 0)).bind
        (jGet · "text")).bind jAsStr with
    | some s => exact Or.inl ⟨s, by simp [anthropic_read_json_response, h]⟩
    | none => exact Or.inr (by simp [anthropic_read_json_response, h])
  · intro j
    cases h : ((((((jGet j "candidates").bind (jIdx · 0)).bind
        (jGet · "content")).bind (jGet · "parts")).bind (jIdx · 0)).bind
        (jGet · "text")).bind jAsStr with
    | some s => exact Or.inl ⟨s, by simp [gemini_read_json_response, h]⟩
    | none => exact Or.inr (by simp [gemini_read_json_response, h])

/-- C5 counterexample: a doubly-wrapped string containing escaped
newlines and tabs satisfies the claim's conditions, yet a second
`normalize` pass strips a further quote pair, so `normalize` is not
idempotent on it. -/
theorem c5_normalize_not_idempotent :
    containsSeq ['\\', 'n'] ("\"\"a\\nb\\tc\"\"").data = true ∧
    containsSeq ['\\', 't'] ("\"\"a\\nb\\tc\"\"").data = true ∧
    startsWithQuote ("\"\"a\\nb\\tc\"\"").data = true ∧
    endsWithQuote ("\"\"a\\nb\\tc\"\"").data = true ∧
    normalize (normalize "\"\"a\\nb\\tc\"\"") ≠ normalize "\"\"a\\nb\\tc\"\"" := by
  refine ⟨rfl, rfl, rfl, rfl, ?_⟩
  decide

/-- C5 (amended): `normalize` is idempotent on every string whose
normalized form contains no backslash (so no escape sequence survives or
is re-created) and is not still wrapped in a redundant quote pair of
length at least two. -/
theorem c5_normalize_idempotent_of_settled (s : String)
    (h1 : '\\' ∉ (normalize s).data)
    (h2 : ¬(startsWithQuote (normalize s).data = true ∧
        endsWithQuote (normalize s).data = true ∧ 2 ≤ (normalize s).data.length)) :
    normalize (normalize s) = normalize s := by
  have hu : unescape (normalize s) = normalize s := by
    unfold unescape
    rw [replaceList_eq_of_head_not_mem _ _ _ _ h1,
        replaceList_eq_of_head_not_mem _ _ _ _ h1,
        replaceList_eq_of_head_not_mem _ _ _ _ h1,
        replaceList_eq_of_head_not_mem _ _ _ _ h1,
        replaceList_eq_of_head_not_mem _ _ _ _ h1,
        string_mk_data]
  show stripWrappingQuotes (unescape (normalize s)) = normalize s
  rw [hu]
  unfold stripWrappingQuotes
  rw [if_neg]
  simp only [Bool.and_eq_true, decide_eq_true_eq]
  tauto

/-- C5 witness: the amended idempotence applied to a concrete string with
an escaped newline and one redundant wrapping quote pair. -/
theorem c5_normalize_idempotent_witness :
    '\\' ∉ (normalize "\"hi\\nthere\"").data ∧
    ¬(startsWithQuote (normalize "\"hi\\nthere\"").data = true ∧
        endsWithQuote (normalize "\"hi\\nthere\"").data = true ∧
        2 ≤ (normalize "\"hi\\nthere\"").data.length) ∧
    normalize (normalize "\"hi\\nthere\"") = normalize "\"hi\\nthere\"" :=
  ⟨by decide, by decide,
   c5_normalize_idempotent_of_settled "\"hi\\nthere\"" (by decide) (by decide)⟩

/-- C6: the quote-strip guard is present on the Anthropic and Gemini
non-streaming prompt paths, but the OpenAI prompt path omits the length
check: on the decoded content consisting of a single double quote
(response `{"choices":[{"message":{"content":"\""}}]}`) the source
evaluates `content[1..0]`, which panics (modelled as `none`), where the
claim requires the text to be returned unchanged. -/
theorem c6_openai_prompt_quote_strip_panics :
    openai_read_json_response
      (Json.obj [("choices", Json.arr [Json.obj [("message",
        Json.obj [("content", Json.str "\"")])]])]) = .ok "\"" ∧
    openaiPromptNormalize "\"" = none ∧
    normalize "\"" = "\"" := by
  refine ⟨rfl, rfl, rfl⟩

end Wire
